import Mathlib

/-!
Verification of the mask-creation kernels of `radio/preprocessing/mask.py`.

The module is embedded shallowly:

* a numpy 3d array becomes a `Volume`: a `(z,y,x)` shape together with a
  total data function on integer coordinates (entries outside the shape box
  are carried but never relevant);
* float voxel values and the float arithmetic of the membership tests are
  modelled by exact rational arithmetic (`ℚ`);
* the numba loops of `make_ellipse_mask_numba` and the slice assignments of
  `insert_cropped` / `create_mask_reg_jit` are embedded by their denotation:
  the function mapping each coordinate to the value it holds after the loop,
  which for these loops (each iteration writes the constant `1`, and no
  iteration reads what another wrote) is the pointwise description below;
* `batch_mask[start[i,0]:end[i,0], ...]` views alias the underlying array;
  the embedding of `make_rect_mask_numba` routes writes through the window
  accordingly, under the documented caller contract that each window
  `[start[i], end[i])` is a valid sub-box of the destination.
-/

/-- An integer `(z,y,x)` coordinate triple, indexed by axis. -/
abbrev V3 : Type := Fin 3 → ℤ

/-- A 3d array: shape plus voxel data, values in `ℚ` (modelling floats). -/
@[ext]
structure Volume where
  shape : V3
  data : V3 → ℚ

instance : Inhabited Volume := ⟨⟨fun _ => 0, fun _ => 0⟩⟩

/-! ### insert_cropped -/

/-- Per-axis `st_what = -np.minimum(np.zeros_like(origin), origin)`. -/
def stWhat (origin : V3) : V3 := fun a => -(min 0 (origin a))

/-- Per-axis `end_what = np.minimum(where_shape - origin, what_shape)`. -/
def endWhat (whereShape whatShape origin : V3) : V3 :=
  fun a => min (whereShape a - origin a) (whatShape a)

/-- Per-axis `st_where = np.maximum(origin, np.zeros_like(origin))`. -/
def stWhere (origin : V3) : V3 := fun a => max (origin a) 0

/-- Per-axis `end_where = np.minimum(origin + what_shape, where_shape)`. -/
def endWhere (whereShape whatShape origin : V3) : V3 :=
  fun a => min (origin a + whatShape a) (whereShape a)

/-- The early-return guard of `insert_cropped`:
`np.any(what_shape + origin <= 0) or np.any(origin >= where_shape)`. -/
abbrev insertSkip (whereShape whatShape origin : V3) : Prop :=
  (∃ a, whatShape a + origin a ≤ 0) ∨ (∃ a, whereShape a ≤ origin a)

/-- Whether `v` lies in the destination write region
`[st_where, end_where)` of `insert_cropped` on every axis. -/
abbrev inWriteRegion (whereShape whatShape origin v : V3) : Prop :=
  ∀ a, stWhere origin a ≤ v a ∧ v a < endWhere whereShape whatShape origin a

/-- Embedding of `insert_cropped(where, what, origin)`.  After the guard, the
slice assignment `where[st_where:end_where] = what[st_what:end_what]` makes
each destination voxel `v` of the write region hold the source voxel at
`st_what + (v - st_where)`; every other voxel keeps its value. -/
def insert_cropped (whereV whatV : Volume) (origin : V3) : Volume :=
  if insertSkip whereV.shape whatV.shape origin then whereV
  else
    { shape := whereV.shape
      data := fun v =>
        if inWriteRegion whereV.shape whatV.shape origin v
        then whatV.data (fun a => v a - stWhere origin a + stWhat origin a)
        else whereV.data v }

/-- Overlap of `[origin, origin + what_shape)` with `[0, where_shape)` is
non-empty on every axis. -/
abbrev overlapNonempty (whereV whatV : Volume) (origin : V3) : Prop :=
  ∀ a, max (origin a) 0 < min (origin a + whatV.shape a) (whereV.shape a)

/-! ### make_ellipse_mask_numba -/

/-- Per-axis `begin_x = np.maximum(0, center[0]-radius[0])` (and y, z). -/
def scanBegin (center radius : V3) : V3 := fun a => max 0 (center a - radius a)

/-- Per-axis `end_x = np.minimum(end[i][0]-start[i][0], center[0]+radius[0]+1)`
(and y, z). -/
def scanEnd (wStart wEnd center radius : V3) : V3 :=
  fun a => min (wEnd a - wStart a) (center a + radius a + 1)

/-- Whether window-relative voxel `v` is visited by the triple scan loop. -/
abbrev inScanRange (wStart wEnd center radius v : V3) : Prop :=
  ∀ a, scanBegin center radius a ≤ v a ∧ v a < scanEnd wStart wEnd center radius a

/-- The scan range is empty on some axis, so the triple loop runs no
iteration at all. -/
abbrev emptyScan (wStart wEnd center radius : V3) : Prop :=
  ∃ a, scanEnd wStart wEnd center radius a ≤ scanBegin center radius a

/-- The quadratic form
`((x-cx)/rx)**2 + ((y-cy)/ry)**2 + ((z-cz)/rz)**2` of the membership test,
float division modelled as exact rational division. -/
def quadForm (center radius v : V3) : ℚ :=
  ((v 0 - center 0 : ℚ) / (radius 0 : ℚ)) ^ 2 +
    ((v 1 - center 1 : ℚ) / (radius 1 : ℚ)) ^ 2 +
    ((v 2 - center 2 : ℚ) / (radius 2 : ℚ)) ^ 2

/-- The strict membership test `quadForm < 1` of the ellipsoid filler. -/
abbrev inEllipse (center radius v : V3) : Prop := quadForm center radius v < 1

/-- One iteration of the outer loop of `make_ellipse_mask_numba`: the triple
loop over the scan box writes `1` at `batch_mask[v + start[i]]` for every
window-relative voxel `v` in the scan range passing the membership test. -/
def fillEllipsoidItem (mask : Volume) (wStart wEnd center radius : V3) : Volume :=
  { shape := mask.shape
    data := fun p =>
      if inScanRange wStart wEnd center radius (fun a => p a - wStart a) ∧
          inEllipse center radius (fun a => p a - wStart a)
      then 1 else mask.data p }

/-- Embedding of `make_ellipse_mask_numba(batch_mask, start, end, centers,
radiuses)`; the parallel input arrays are zipped into one list of items
`(start[i], end[i], centers[i], radiuses[i])`. -/
def make_ellipse_mask_numba (mask : Volume) (items : List (V3 × V3 × V3 × V3)) :
    Volume :=
  items.foldl (fun m it => fillEllipsoidItem m it.1 it.2.1 it.2.2.1 it.2.2.2) mask

/-! ### make_rect_mask_numba -/

/-- Whether `p` lies in the half-open window `[wStart, wEnd)` on every axis. -/
abbrev inWindow (wStart wEnd p : V3) : Prop := ∀ a, wStart a ≤ p a ∧ p a < wEnd a

/-- One iteration of the loop of `make_rect_mask_numba`: build the all-ones
`nodule` of shape `nodule_size`, take the aliasing view
`patient_mask = batch_mask[start[i]:end[i]]` (shape `end[i]-start[i]` under
the caller contract that the window is a valid sub-box), and run
`insert_cropped(patient_mask, nodule, nodules_start[i])`; writes through the
view land at window coordinates shifted by `start[i]`. -/
def fillRectItem (mask : Volume) (wStart wEnd nStart nSize : V3) : Volume :=
  { shape := mask.shape
    data := fun p =>
      if inWindow wStart wEnd p
      then (insert_cropped
          ⟨fun a => wEnd a - wStart a, fun q => mask.data (fun a => q a + wStart a)⟩
          ⟨nSize, fun _ => 1⟩ nStart).data (fun a => p a - wStart a)
      else mask.data p }

/-- Embedding of `make_rect_mask_numba(batch_mask, start, end, nodules_start,
nodules_size)`; parallel arrays zipped into items
`(start[i], end[i], nodules_start[i], nodules_size[i])`. -/
def make_rect_mask_numba (mask : Volume) (items : List (V3 × V3 × V3 × V3)) :
    Volume :=
  items.foldl (fun m it => fillRectItem m it.1 it.2.1 it.2.2.1 it.2.2.2) mask

/-- Voxel `p` is outside every item's window `[start[i], end[i])`. -/
abbrev outsideAllWindows (items : List (V3 × V3 × V3 × V3)) (p : V3) : Prop :=
  ∀ it ∈ items, ¬ inWindow it.1 it.2.1 p

/-! ### create_mask_reg -/

/-- Embedding of `np.clip(x, 0, 1)`. -/
def clip01 (q : ℚ) : ℚ := min (max q 0) 1

/-- Embedding of `np.rint` (round to nearest, ties to even) followed by the
truncating `astype(np.int)` cast, which is exact on the integral result. -/
def rint (q : ℚ) : ℤ :=
  if q - ⌊q⌋ < 1/2 then ⌊q⌋
  else if 1/2 < q - ⌊q⌋ then ⌊q⌋ + 1
  else if ⌊q⌋ % 2 = 0 then ⌊q⌋ else ⌊q⌋ + 1

/-- Per-axis
`start_pixels = np.rint(np.clip(centers - sizes / 2, 0, 1) * crop_shape)`. -/
def startPixel (center size : Fin 3 → ℚ) (cropShape : Fin 3 → ℕ) : V3 :=
  fun a => rint (clip01 (center a - size a / 2) * (cropShape a : ℚ))

/-- Per-axis
`end_pixels = np.rint(np.clip(centers + sizes / 2, 0, 1) * crop_shape)`. -/
def endPixel (center size : Fin 3 → ℚ) (cropShape : Fin 3 → ℕ) : V3 :=
  fun a => rint (clip01 (center a + size a / 2) * (cropShape a : ℚ))

/-- One batch item of `create_mask_reg`: the item's volume starts all-zero;
when `prob > threshold` it is selected and `create_mask_reg_jit` assigns `1`
on the box `[start_pixels, end_pixels)`; otherwise it stays all-zero. -/
def create_mask_reg_item (center size : Fin 3 → ℚ) (prob : ℚ)
    (cropShape : Fin 3 → ℕ) (threshold : ℚ) : Volume :=
  if prob > threshold then
    { shape := fun a => (cropShape a : ℤ)
      data := fun p =>
        if ∀ a, startPixel center size cropShape a ≤ p a ∧
            p a < endPixel center size cropShape a
        then 1 else 0 }
  else { shape := fun a => (cropShape a : ℤ), data := fun _ => 0 }

/-- Embedding of `create_mask_reg(centers, sizes, probs, crop_shape,
threshold)`: the parallel item arrays are walked in lockstep. -/
def create_mask_reg : List (Fin 3 → ℚ) → List (Fin 3 → ℚ) → List ℚ →
    (Fin 3 → ℕ) → ℚ → List Volume
  | c :: cs, s :: ss, p :: ps, crop, t =>
      create_mask_reg_item c s p crop t :: create_mask_reg cs ss ps crop t
  | _, _, _, _, _ => []

/-- Every voxel of the volume is zero. -/
abbrev allZero (vol : Volume) : Prop := ∀ p : V3, vol.data p = 0

/-- Every component is strictly positive. -/
abbrev allPos (s : Fin 3 → ℚ) : Prop := ∀ a, 0 < s a

/-- Every component is non-negative. -/
abbrev sizeNonneg (s : Fin 3 → ℚ) : Prop := ∀ a, 0 ≤ s a

/-- The rounded box of an item is non-empty on every axis. -/
abbrev startLtEnd (center size : Fin 3 → ℚ) (cropShape : Fin 3 → ℕ) : Prop :=
  ∀ a, startPixel center size cropShape a < endPixel center size cropShape a

/-- The rounded box of an item collapses (start = end) on some axis. -/
abbrev collapsedAxis (center size : Fin 3 → ℚ) (cropShape : Fin 3 → ℕ) : Prop :=
  ∃ a, startPixel center size cropShape a = endPixel center size cropShape a

/-! ### Concrete inputs used by the closed witness statements -/

/-- A (3,3,3) all-zero destination, as in the docstring example. -/
def whereW : Volume := ⟨fun _ => 3, fun _ => 0⟩

/-- A (2,2,2) all-ones source, as in the docstring example. -/
def whatW : Volume := ⟨fun _ => 2, fun _ => 1⟩

/-- The docstring origin (2,2,2). -/
def orgW : V3 := fun _ => 2

/-- The corner voxel (2,2,2). -/
def vW : V3 := fun _ => 2

/-- An origin (5,5,5) entirely beyond a (3,3,3) destination. -/
def orgSkipW : V3 := fun _ => 5

/-- The all-zero triple. -/
def zeroW : V3 := fun _ => 0

/-- The all-one triple. -/
def oneW : V3 := fun _ => 1

/-- The all-two triple. -/
def twoW : V3 := fun _ => 2

/-- The all-four triple. -/
def fourW : V3 := fun _ => 4

/-- A voxel at offset `radius` from center (2,2,2) along axis 0. -/
def pEdgeW : V3 := fun b => if b = 0 then 3 else 2

/-- A normalized center (1/2, 1/2, 1/2) for the regression path. -/
def centerA : Fin 3 → ℚ := fun _ => 1/2

/-- A normalized full size (1, 1, 1) for the regression path. -/
def sizeA : Fin 3 → ℚ := fun _ => 1

/-- A normalized size (1/2, 1/2, 1/2) for the regression path. -/
def sizeB : Fin 3 → ℚ := fun _ => 1/2

/-- A (4,4,4) crop shape for the regression path. -/
def cropA : Fin 3 → ℕ := fun _ => 4

/-- Center (0.52, 0.52, 0.52): its tiny box rounds to an empty pixel box. -/
def centerCex : Fin 3 → ℚ := fun _ => 52/100

/-- A strictly positive but tiny size (0.001, 0.001, 0.001). -/
def sizeCex : Fin 3 → ℚ := fun _ => 1/1000

/-- A (10,10,10) crop shape. -/
def cropCex : Fin 3 → ℕ := fun _ => 10

/-! ### Helper lemmas -/

/-- Pointwise description of the array left behind by `insert_cropped`. -/
lemma insert_cropped_data (whereV whatV : Volume) (origin v : V3) :
    (insert_cropped whereV whatV origin).data v =
      if insertSkip whereV.shape whatV.shape origin then whereV.data v
      else if inWriteRegion whereV.shape whatV.shape origin v
        then whatV.data (fun a => v a - stWhere origin a + stWhat origin a)
        else whereV.data v := by
  unfold insert_cropped
  by_cases hs : insertSkip whereV.shape whatV.shape origin <;> simp [hs]

/-! ### Claims -/

/-- C1: for every destination volume, source volume and integer origin,
`insert_cropped` changes only voxels inside the destination bounds, reads
only voxels inside the source bounds, and the computed read region
`[st_what, end_what)` and write region `[st_where, end_where)` have equal
extent on every axis. -/
theorem insert_cropped_safe (whereV whatV : Volume) (origin : V3) :
    (∀ v : V3, (insert_cropped whereV whatV origin).data v ≠ whereV.data v →
      ∀ a, 0 ≤ v a ∧ v a < whereV.shape a) ∧
    (∀ v : V3, inWriteRegion whereV.shape whatV.shape origin v →
      ∀ a, 0 ≤ v a - stWhere origin a + stWhat origin a ∧
        v a - stWhere origin a + stWhat origin a < whatV.shape a) ∧
    (∀ a, endWhat whereV.shape whatV.shape origin a - stWhat origin a =
      endWhere whereV.shape whatV.shape origin a - stWhere origin a) := by
  refine ⟨?_, ?_, ?_⟩
  · intro v h
    rw [insert_cropped_data] at h
    by_cases hs : insertSkip whereV.shape whatV.shape origin
    · rw [if_pos hs] at h
      exact absurd rfl h
    · rw [if_neg hs] at h
      by_cases hv : inWriteRegion whereV.shape whatV.shape origin v
      · intro a
        have h1 := hv a
        simp only [stWhere, endWhere] at h1
        omega
      · rw [if_neg hv] at h
        exact absurd rfl h
  · intro v hv a
    have h1 := hv a
    simp only [stWhere, endWhere] at h1
    simp only [stWhere, stWhat]
    omega
  · intro a
    simp only [endWhat, stWhat, endWhere, stWhere]
    omega

/-- Closed witness for C1 at the docstring example. -/
theorem insert_cropped_safe_witness :
    inWriteRegion whereW.shape whatW.shape orgW vW ∧
    (∀ a, 0 ≤ vW a - stWhere orgW a + stWhat orgW a ∧
      vW a - stWhere orgW a + stWhat orgW a < whatW.shape a) :=
  ⟨by decide, (insert_cropped_safe whereW whatW orgW).2.1 vW (by decide)⟩

/-- C2: when the overlap of source and destination is non-empty,
`insert_cropped` computes on every axis `st_what = max(0, -origin)`,
`end_what = min(where_shape - origin, what_shape)`,
`st_where = max(origin, 0)`, `end_where = min(origin + what_shape,
where_shape)`, and afterwards every destination voxel of the write region
holds the corresponding source voxel. -/
theorem insert_cropped_copies (whereV whatV : Volume) (origin : V3)
    (hov : overlapNonempty whereV whatV origin) :
    (∀ a, stWhat origin a = max 0 (-(origin a)) ∧
      endWhat whereV.shape whatV.shape origin a =
        min (whereV.shape a - origin a) (whatV.shape a) ∧
      stWhere origin a = max (origin a) 0 ∧
      endWhere whereV.shape whatV.shape origin a =
        min (origin a + whatV.shape a) (whereV.shape a)) ∧
    ∀ v : V3, inWriteRegion whereV.shape whatV.shape origin v →
      (insert_cropped whereV whatV origin).data v =
        whatV.data (fun a => v a - stWhere origin a + stWhat origin a) := by
  constructor
  · intro a
    refine ⟨?_, rfl, rfl, rfl⟩
    simp only [stWhat]
    omega
  · intro v hv
    have hns : ¬ insertSkip whereV.shape whatV.shape origin := by
      rintro (⟨a, ha⟩ | ⟨a, ha⟩) <;> · have := hov a; omega
    rw [insert_cropped_data, if_neg hns, if_pos hv]

/-- Closed witness for C2 at the docstring example: origin (2,2,2) makes
destination voxel (2,2,2) receive source voxel (0,0,0). -/
theorem insert_cropped_copies_witness :
    overlapNonempty whereW whatW orgW ∧
    inWriteRegion whereW.shape whatW.shape orgW vW ∧
    (insert_cropped whereW whatW orgW).data vW =
      whatW.data (fun a => vW a - stWhere orgW a + stWhat orgW a) :=
  ⟨by decide, by decide,
    (insert_cropped_copies whereW whatW orgW (by decide)).2 vW (by decide)⟩

/-- C3: if `what_shape + origin ≤ 0` on some axis or `origin ≥ where_shape`
on some axis, `insert_cropped` is a silent no-op returning the destination
unchanged; likewise one ellipsoid item whose scan range is empty on some
axis writes nothing. -/
theorem insert_cropped_skip_noop (whereV whatV : Volume) (origin : V3)
    (mask : Volume) (wS wE c r : V3) :
    (insertSkip whereV.shape whatV.shape origin →
      insert_cropped whereV whatV origin = whereV) ∧
    (emptyScan wS wE c r → fillEllipsoidItem mask wS wE c r = mask) := by
  constructor
  · intro hs
    unfold insert_cropped
    rw [if_pos hs]
  · rintro ⟨a, ha⟩
    unfold fillEllipsoidItem
    ext p
    · rfl
    · simp only
      rw [if_neg]
      rintro ⟨hin, _⟩
      have h1 := hin a
      simp only [scanBegin, scanEnd] at h1 ha
      omega

/-- Closed witness for C3: origin (5,5,5) beyond a (3,3,3) destination is a
no-op, and a (0,0,0)-sized window scan range is empty and writes nothing. -/
theorem insert_cropped_skip_noop_witness :
    insertSkip whereW.shape whatW.shape orgSkipW ∧
    insert_cropped whereW whatW orgSkipW = whereW ∧
    emptyScan zeroW zeroW zeroW oneW ∧
    fillEllipsoidItem whereW zeroW zeroW zeroW oneW = whereW :=
  ⟨by decide,
    (insert_cropped_skip_noop whereW whatW orgSkipW whereW zeroW zeroW zeroW
      oneW).1 (by decide),
    by decide,
    (insert_cropped_skip_noop whereW whatW orgSkipW whereW zeroW zeroW zeroW
      oneW).2 (by decide)⟩

/-- An ellipsoid item only changes voxels inside its window. -/
lemma fillEllipsoidItem_frame (mask : Volume) (wS wE c r p : V3)
    (h : ¬ inWindow wS wE p) :
    (fillEllipsoidItem mask wS wE c r).data p = mask.data p := by
  simp only [fillEllipsoidItem]
  rw [if_neg]
  rintro ⟨hin, _⟩
  apply h
  intro a
  have h1 := hin a
  simp only [scanBegin, scanEnd] at h1
  constructor <;> omega

/-- A box item only changes voxels inside its window. -/
lemma fillRectItem_frame (mask : Volume) (wS wE nS nSz p : V3)
    (h : ¬ inWindow wS wE p) :
    (fillRectItem mask wS wE nS nSz).data p = mask.data p := by
  simp only [fillRectItem]
  rw [if_neg h]

/-- Frame property of the box filler loop, by induction on the items. -/
lemma make_rect_frame_aux (items : List (V3 × V3 × V3 × V3)) (p : V3) :
    ∀ mask : Volume, outsideAllWindows items p →
      (make_rect_mask_numba mask items).data p = mask.data p := by
  induction items with
  | nil => intro mask _; rfl
  | cons it rest ih =>
    intro mask h
    have hstep : make_rect_mask_numba mask (it :: rest) =
        make_rect_mask_numba (fillRectItem mask it.1 it.2.1 it.2.2.1 it.2.2.2)
          rest := rfl
    rw [hstep, ih _ fun x hx => h x (List.mem_cons_of_mem _ hx),
      fillRectItem_frame _ _ _ _ _ _ (h it (List.mem_cons_self _ _))]

/-- Frame property of the ellipsoid filler loop, by induction on the items. -/
lemma make_ellipse_frame_aux (items : List (V3 × V3 × V3 × V3)) (p : V3) :
    ∀ mask : Volume, outsideAllWindows items p →
      (make_ellipse_mask_numba mask items).data p = mask.data p := by
  induction items with
  | nil => intro mask _; rfl
  | cons it rest ih =>
    intro mask h
    have hstep : make_ellipse_mask_numba mask (it :: rest) =
        make_ellipse_mask_numba
          (fillEllipsoidItem mask it.1 it.2.1 it.2.2.1 it.2.2.2) rest := rfl
    rw [hstep, ih _ fun x hx => h x (List.mem_cons_of_mem _ hx),
      fillEllipsoidItem_frame _ _ _ _ _ _ (h it (List.mem_cons_self _ _))]

/-- C4: for every ellipsoid item the scan range is
`begin = max(0, center - radius)`, `end = min(window_size, center+radius+1)`
per axis with `window_size = end[i] - start[i]`; every visited voxel has
window-relative coordinates in `[0, window_size)` and every write lands
inside the half-open window `[start[i], end[i])`. -/
theorem ellipse_scan_in_window (wS wE center radius : V3) :
    (∀ a, scanBegin center radius a = max 0 (center a - radius a) ∧
      scanEnd wS wE center radius a =
        min (wE a - wS a) (center a + radius a + 1)) ∧
    (∀ v : V3, inScanRange wS wE center radius v →
      ∀ a, 0 ≤ v a ∧ v a < wE a - wS a) ∧
    (∀ (mask : Volume) (p : V3),
      (fillEllipsoidItem mask wS wE center radius).data p ≠ mask.data p →
      inWindow wS wE p) := by
  refine ⟨fun a => ⟨rfl, rfl⟩, ?_, ?_⟩
  · intro v hv a
    have h1 := hv a
    simp only [scanBegin, scanEnd] at h1
    omega
  · intro mask p h
    by_contra hw
    exact h (fillEllipsoidItem_frame mask wS wE center radius p hw)

/-- Closed witness for C4: voxel (2,2,2) of the scan range of center
(2,2,2), radius (1,1,1) in a size-4 window is inside the window. -/
theorem ellipse_scan_in_window_witness :
    inScanRange zeroW fourW twoW oneW twoW ∧
    (∀ a, 0 ≤ twoW a ∧ twoW a < fourW a - zeroW a) :=
  ⟨by decide, (ellipse_scan_in_window zeroW fourW twoW oneW).2.1 twoW (by decide)⟩

/-- C5: the ellipsoid filler sets a voxel to 1 exactly when its normalized
quadratic form is strictly below 1: a voxel with form ≥ 1 is left unchanged
(in particular one at exactly 1, e.g. at offset radius along a single axis
from the center), and every scanned voxel with form < 1 is set to 1. -/
theorem ellipse_membership (mask : Volume) (wS wE center radius : V3) (p : V3) :
    (1 ≤ quadForm center radius (fun a => p a - wS a) →
      (fillEllipsoidItem mask wS wE center radius).data p = mask.data p) ∧
    (inScanRange wS wE center radius (fun a => p a - wS a) →
      quadForm center radius (fun a => p a - wS a) < 1 →
      (fillEllipsoidItem mask wS wE center radius).data p = 1) ∧
    (∀ a, radius a ≠ 0 →
      quadForm center radius
        (fun b => center b + (if b = a then radius a else 0)) = 1) := by
  refine ⟨?_, ?_, ?_⟩
  · intro h
    simp only [fillEllipsoidItem]
    rw [if_neg]
    rintro ⟨_, hlt⟩
    exact absurd hlt (not_lt.mpr h)
  · intro hin hlt
    simp only [fillEllipsoidItem]
    rw [if_pos ⟨hin, hlt⟩]
  · intro a ha
    have htri : a = 0 ∨ a = 1 ∨ a = 2 := by omega
    rcases htri with h | h | h <;> subst h <;>
    · have hc : ((radius _ : ℤ) : ℚ) ≠ 0 := Int.cast_ne_zero.mpr ha
      simp only [quadForm]
      push_cast
      simp [div_self hc]

/-- Closed witness for C5: with center (2,2,2) and radius (1,1,1), voxel
(3,2,2) has form exactly 1 and stays unchanged, the center voxel has form
0 < 1 and is set, and the axis-0 offset-by-radius voxel has form 1. -/
theorem ellipse_membership_witness :
    (1 ≤ quadForm twoW oneW (fun a => pEdgeW a - zeroW a)) ∧
    (fillEllipsoidItem whereW zeroW fourW twoW oneW).data pEdgeW =
      whereW.data pEdgeW ∧
    inScanRange zeroW fourW twoW oneW (fun a => twoW a - zeroW a) ∧
    quadForm twoW oneW (fun a => twoW a - zeroW a) < 1 ∧
    (fillEllipsoidItem whereW zeroW fourW twoW oneW).data twoW = 1 ∧
    (oneW 0 ≠ 0 ∧
      quadForm twoW oneW (fun b => twoW b + (if b = 0 then oneW 0 else 0)) = 1) :=
  ⟨by norm_num [quadForm, pEdgeW, zeroW, twoW, oneW]; positivity,
    (ellipse_membership whereW zeroW fourW twoW oneW pEdgeW).1
      (by norm_num [quadForm, pEdgeW, zeroW, twoW, oneW]; positivity),
    by decide,
    by norm_num [quadForm, zeroW, twoW, oneW],
    (ellipse_membership whereW zeroW fourW twoW oneW twoW).2.1 (by decide)
      (by norm_num [quadForm, zeroW, twoW, oneW]),
    ⟨by decide,
      (ellipse_membership whereW zeroW fourW twoW oneW twoW).2.2 0 (by decide)⟩⟩

/-- C8: a destination voxel outside every item's window `[start[i], end[i])`
is left unchanged by the box filler and by the ellipsoid filler. -/
theorem mask_fillers_frame (mask : Volume) (items : List (V3 × V3 × V3 × V3))
    (p : V3) (h : outsideAllWindows items p) :
    (make_rect_mask_numba mask items).data p = mask.data p ∧
    (make_ellipse_mask_numba mask items).data p = mask.data p :=
  ⟨make_rect_frame_aux items p mask h, make_ellipse_frame_aux items p mask h⟩

/-- Closed witness for C8: voxel (5,5,5) is outside the single window
`[0,2)³` and both fillers leave it unchanged. -/
theorem mask_fillers_frame_witness :
    outsideAllWindows [(zeroW, twoW, zeroW, oneW)] orgSkipW ∧
    (make_rect_mask_numba whereW [(zeroW, twoW, zeroW, oneW)]).data orgSkipW =
      whereW.data orgSkipW ∧
    (make_ellipse_mask_numba whereW [(zeroW, twoW, zeroW, oneW)]).data orgSkipW =
      whereW.data orgSkipW :=
  ⟨by decide,
    (mask_fillers_frame whereW [(zeroW, twoW, zeroW, oneW)] orgSkipW
      (by decide)).1,
    (mask_fillers_frame whereW [(zeroW, twoW, zeroW, oneW)] orgSkipW
      (by decide)).2⟩

/-- The rounded value is at least the floor. -/
lemma floor_le_rint (q : ℚ) : ⌊q⌋ ≤ rint q := by
  unfold rint
  split_ifs <;> omega

/-- The rounded value is at most the floor plus one. -/
lemma rint_le_floor_add_one (q : ℚ) : rint q ≤ ⌊q⌋ + 1 := by
  unfold rint
  split_ifs <;> omega

/-- Round-half-to-even is monotone. -/
lemma rint_mono {p q : ℚ} (h : p ≤ q) : rint p ≤ rint q := by
  rcases lt_or_ge ⌊p⌋ ⌊q⌋ with hf | hf
  · calc rint p ≤ ⌊p⌋ + 1 := rint_le_floor_add_one p
    _ ≤ ⌊q⌋ := by omega
    _ ≤ rint q := floor_le_rint q
  · have hfe : ⌊p⌋ = ⌊q⌋ := le_antisymm (Int.floor_mono h) hf
    unfold rint
    rw [← hfe]
    split_ifs <;> first | omega | linarith

/-- Rounding an integer returns it. -/
lemma rint_intCast (m : ℤ) : rint (m : ℚ) = m := by
  unfold rint
  rw [Int.floor_intCast, if_pos]
  norm_num

/-- The clip to [0,1] is monotone. -/
lemma clip01_mono {p q : ℚ} (h : p ≤ q) : clip01 p ≤ clip01 q :=
  min_le_min (max_le_max h (le_refl 0)) (le_refl 1)

/-- Indexing the output batch of `create_mask_reg`. -/
lemma create_mask_reg_get (centers sizes : List (Fin 3 → ℚ)) (probs : List ℚ)
    (crop : Fin 3 → ℕ) (t : ℚ) (i : ℕ) (c s : Fin 3 → ℚ) (pr : ℚ)
    (hc : centers[i]? = some c) (hs : sizes[i]? = some s)
    (hp : probs[i]? = some pr) :
    (create_mask_reg centers sizes probs crop t)[i]? =
      some (create_mask_reg_item c s pr crop t) := by
  induction centers generalizing sizes probs i with
  | nil => simp at hc
  | cons c0 cs ih =>
    cases sizes with
    | nil => simp at hs
    | cons s0 ss =>
      cases probs with
      | nil => simp at hp
      | cons p0 ps =>
        cases i with
        | zero =>
          simp only [List.getElem?_cons_zero, Option.some_inj] at hc hs hp
          subst hc; subst hs; subst hp
          simp [create_mask_reg]
        | succ n =>
          simp only [List.getElem?_cons_succ] at hc hs hp
          simpa only [create_mask_reg, List.getElem?_cons_succ] using
            ih ss ps n hc hs hp

/-- Both pixel coordinates of the tiny-size counterexample item collapse
to 5 on every axis. -/
lemma pixelsCex (a : Fin 3) :
    startPixel centerCex sizeCex cropCex a = 5 ∧
    endPixel centerCex sizeCex cropCex a = 5 := by
  constructor
  · show rint (clip01 (centerCex a - sizeCex a / 2) * (cropCex a : ℚ)) = 5
    have h1 : clip01 (centerCex a - sizeCex a / 2) * (cropCex a : ℚ) =
        1039/200 := by
      norm_num [centerCex, sizeCex, cropCex, clip01, min_def, max_def]
    rw [h1]
    have hf : ⌊(1039/200 : ℚ)⌋ = 5 := by norm_num [Int.floor_eq_iff]
    unfold rint
    rw [hf]
    norm_num
  · show rint (clip01 (centerCex a + sizeCex a / 2) * (cropCex a : ℚ)) = 5
    have h1 : clip01 (centerCex a + sizeCex a / 2) * (cropCex a : ℚ) =
        1041/200 := by
      norm_num [centerCex, sizeCex, cropCex, clip01, min_def, max_def]
    rw [h1]
    have hf : ⌊(1041/200 : ℚ)⌋ = 5 := by norm_num [Int.floor_eq_iff]
    unfold rint
    rw [hf]
    norm_num

/-- The (1/2, 1, crop 4) witness item rounds to the full box [0,4). -/
lemma pixelsAmendW (a : Fin 3) :
    startPixel centerA sizeA cropA a = 0 ∧ endPixel centerA sizeA cropA a = 4 := by
  constructor
  · show rint (clip01 (centerA a - sizeA a / 2) * (cropA a : ℚ)) = 0
    have h1 : clip01 (centerA a - sizeA a / 2) * (cropA a : ℚ) =
        ((0 : ℤ) : ℚ) := by
      norm_num [centerA, sizeA, cropA, clip01, min_def, max_def]
    rw [h1, rint_intCast]
  · show rint (clip01 (centerA a + sizeA a / 2) * (cropA a : ℚ)) = 4
    have h1 : clip01 (centerA a + sizeA a / 2) * (cropA a : ℚ) =
        ((4 : ℤ) : ℚ) := by
      norm_num [centerA, sizeA, cropA, clip01, min_def, max_def]
    rw [h1, rint_intCast]

/-- C6: the regression coordinates are
`start = rint(clip(center - size/2, 0, 1) * crop_shape)` and
`end = rint(clip(center + size/2, 0, 1) * crop_shape)` with `rint` rounding
to nearest, ties to even (3/2 and 5/2 both round to 2); for non-negative
size components `start ≤ end` holds on every axis. -/
theorem reg_pixels_monotone (center size : Fin 3 → ℚ) (cropShape : Fin 3 → ℕ)
    (h : sizeNonneg size) :
    (∀ a, startPixel center size cropShape a =
        rint (clip01 (center a - size a / 2) * (cropShape a : ℚ)) ∧
      endPixel center size cropShape a =
        rint (clip01 (center a + size a / 2) * (cropShape a : ℚ))) ∧
    rint (3/2) = 2 ∧ rint (5/2) = 2 ∧
    (∀ a, startPixel center size cropShape a ≤
      endPixel center size cropShape a) := by
  refine ⟨fun a => ⟨rfl, rfl⟩, ?_, ?_, ?_⟩
  · have hf : ⌊(3/2 : ℚ)⌋ = 1 := by norm_num [Int.floor_eq_iff]
    unfold rint
    rw [hf]
    norm_num
  · have hf : ⌊(5/2 : ℚ)⌋ = 2 := by norm_num [Int.floor_eq_iff]
    unfold rint
    rw [hf]
    norm_num
  · intro a
    apply rint_mono
    apply mul_le_mul_of_nonneg_right _ (Nat.cast_nonneg _)
    apply clip01_mono
    have := h a
    linarith

/-- Closed witness for C6 at center 1/2, size 1/2, crop 4. -/
theorem reg_pixels_monotone_witness :
    sizeNonneg sizeB ∧
    (∀ a, startPixel centerA sizeB cropA a ≤ endPixel centerA sizeB cropA a) :=
  ⟨fun a => by norm_num [sizeB],
    (reg_pixels_monotone centerA sizeB cropA (fun a => by norm_num [sizeB])).2.2.2⟩

/-- C7: batch item i of `create_mask_reg` is the box-filled volume exactly
when `prob > threshold` (strict), and is all-zero when `prob ≤ threshold`. -/
theorem reg_threshold_select (centers sizes : List (Fin 3 → ℚ)) (probs : List ℚ)
    (crop : Fin 3 → ℕ) (t : ℚ) (i : ℕ) (c s : Fin 3 → ℚ) (pr : ℚ)
    (hc : centers[i]? = some c) (hs : sizes[i]? = some s)
    (hp : probs[i]? = some pr) :
    (create_mask_reg centers sizes probs crop t)[i]? =
      some (create_mask_reg_item c s pr crop t) ∧
    (pr > t → ∀ p : V3, (create_mask_reg_item c s pr crop t).data p =
      if ∀ a, startPixel c s crop a ≤ p a ∧ p a < endPixel c s crop a
      then 1 else 0) ∧
    (¬ pr > t → allZero (create_mask_reg_item c s pr crop t)) := by
  refine ⟨create_mask_reg_get centers sizes probs crop t i c s pr hc hs hp,
    ?_, ?_⟩
  · intro hsel p
    unfold create_mask_reg_item
    rw [if_pos hsel]
  · intro hns p
    unfold create_mask_reg_item
    rw [if_neg hns]

/-- Closed witness for C7: a single item with prob 1/10 ≤ threshold 1/2
stays all-zero. -/
theorem reg_threshold_select_witness :
    (([centerA] : List (Fin 3 → ℚ))[0]? = some centerA) ∧
    ¬ ((1/10 : ℚ) > 1/2) ∧
    allZero (create_mask_reg_item centerA sizeB (1/10) cropA (1/2)) :=
  ⟨rfl, by norm_num,
    (reg_threshold_select [centerA] [sizeB] [1/10] cropA (1/2) 0 centerA sizeB
      (1/10) rfl rfl rfl).2.2 (by norm_num)⟩

/-- C9 counterexample: with probs (0.9, 0.1) and threshold 0.5, item 0 has
strictly positive size (0.001 per axis) yet its mask volume is entirely
zero: center 0.52 and crop shape 10 round both pixel bounds to 5. -/
theorem reg_threshold_cex :
    (9/10 : ℚ) > 1/2 ∧ allPos sizeCex ∧
    allZero ((create_mask_reg [centerCex, centerCex] [sizeCex, sizeCex]
      [9/10, 1/10] cropCex (1/2)).headI) := by
  refine ⟨by norm_num, fun a => by norm_num [sizeCex], ?_⟩
  intro p
  show (create_mask_reg_item centerCex sizeCex (9/10) cropCex (1/2)).data p = 0
  unfold create_mask_reg_item
  rw [if_pos (by norm_num : (9/10 : ℚ) > 1/2)]
  simp only
  rw [if_neg]
  intro hall
  have h1 := hall 0
  have h2 := (pixelsCex 0).1
  have h3 := (pixelsCex 0).2
  omega

/-- C9 amended: with probs (0.9, 0.1) and threshold 0.5, item 1's volume is
all-zero, and item 0's volume is non-empty provided the rounded pixel box is
non-empty on every axis (start < end); strictly positive size alone does not
guarantee this. -/
theorem reg_threshold_amended (c0 s0 c1 s1 : Fin 3 → ℚ) (crop : Fin 3 → ℕ) :
    (startLtEnd c0 s0 crop →
      ((create_mask_reg [c0, c1] [s0, s1] [9/10, 1/10] crop (1/2)).headI).data
        (startPixel c0 s0 crop) = 1) ∧
    allZero ((create_mask_reg [c0, c1] [s0, s1] [9/10, 1/10] crop
      (1/2)).getD 1 default) := by
  constructor
  · intro h
    show (create_mask_reg_item c0 s0 (9/10) crop (1/2)).data
      (startPixel c0 s0 crop) = 1
    unfold create_mask_reg_item
    rw [if_pos (by norm_num : (9/10 : ℚ) > 1/2)]
    simp only
    rw [if_pos fun a => ⟨le_refl _, h a⟩]
  · intro p
    show (create_mask_reg_item c1 s1 (1/10) crop (1/2)).data p = 0
    unfold create_mask_reg_item
    rw [if_neg (by norm_num : ¬ ((1/10 : ℚ) > 1/2))]

/-- Closed witness for the amended C9: center 1/2, size 1, crop 4 gives
pixel box [0,4), non-empty, so item 0 is set at its start pixel and item 1
is all-zero. -/
theorem reg_threshold_amended_witness :
    startLtEnd centerA sizeA cropA ∧
    ((create_mask_reg [centerA, centerA] [sizeA, sizeA] [9/10, 1/10] cropA
      (1/2)).headI).data (startPixel centerA sizeA cropA) = 1 ∧
    allZero ((create_mask_reg [centerA, centerA] [sizeA, sizeA] [9/10, 1/10]
      cropA (1/2)).getD 1 default) :=
  ⟨fun a => by rw [(pixelsAmendW a).1, (pixelsAmendW a).2]; norm_num,
    (reg_threshold_amended centerA sizeA centerA sizeA cropA).1
      (fun a => by rw [(pixelsAmendW a).1, (pixelsAmendW a).2]; norm_num),
    (reg_threshold_amended centerA sizeA centerA sizeA cropA).2⟩

/-- C10: if the rounded start equals the rounded end on some axis, the item's
output volume is all-zero whatever its prob and threshold are (so in
particular even when prob > threshold and every size component is positive);
such inputs exist: size 0.001 > 0 collapses the box of the center-0.52,
crop-10 item. -/
theorem reg_collapsed_zero (centers sizes : List (Fin 3 → ℚ)) (probs : List ℚ)
    (crop : Fin 3 → ℕ) (t : ℚ) (i : ℕ) (c s : Fin 3 → ℚ) (pr : ℚ)
    (hc : centers[i]? = some c) (hs : sizes[i]? = some s)
    (hp : probs[i]? = some pr) (hcol : collapsedAxis c s crop) :
    allZero (((create_mask_reg centers sizes probs crop t)[i]?).getD default) ∧
    allPos sizeCex ∧ collapsedAxis centerCex sizeCex cropCex := by
  refine ⟨?_, fun a => by norm_num [sizeCex],
    ⟨0, by rw [(pixelsCex 0).1, (pixelsCex 0).2]⟩⟩
  rw [create_mask_reg_get centers sizes probs crop t i c s pr hc hs hp]
  intro p
  show (create_mask_reg_item c s pr crop t).data p = 0
  obtain ⟨a, ha⟩ := hcol
  unfold create_mask_reg_item
  by_cases hsel : pr > t
  · rw [if_pos hsel]
    simp only
    rw [if_neg]
    intro hall
    have h1 := hall a
    omega
  · rw [if_neg hsel]

/-- Closed witness for C10 at the collapsing input. -/
theorem reg_collapsed_zero_witness :
    collapsedAxis centerCex sizeCex cropCex ∧
    allZero (((create_mask_reg [centerCex] [sizeCex] [9/10] cropCex
      (1/2))[0]?).getD default) :=
  ⟨⟨0, by rw [(pixelsCex 0).1, (pixelsCex 0).2]⟩,
    (reg_collapsed_zero [centerCex] [sizeCex] [9/10] cropCex (1/2) 0 centerCex
      sizeCex (9/10) rfl rfl rfl
      ⟨0, by rw [(pixelsCex 0).1, (pixelsCex 0).2]⟩).1⟩
